import Mathlib

/-!
Verification development for the Better Images job-orchestration core
(`src/app.py`, `src/processor.py`).

The Python code is shallowly embedded: every route handler and pipeline
body becomes a pure Lean function over an explicit job-store value, and
the external transformation providers (Real-ESRGAN, rembg, vtracer, PIL)
become an `Env` record of fallible functions, mirroring the fact that
each provider call either returns an output path or raises an exception.
-/

namespace BetterImages

/-! ## Path helpers (mirror of Python `pathlib` on POSIX paths) -/

/-- Characters of the last `/`-separated component of a path
(`pathlib.PurePath.name`). -/
def baseNameChars : List Char → List Char → List Char
  | [], acc => acc.reverse
  | c :: cs, acc =>
    if c = '/' then baseNameChars cs [] else baseNameChars cs (c :: acc)

/-- Last path component, as `pathlib.Path(p).name`. -/
def baseName (p : String) : String := String.mk (baseNameChars p.data [])

/-- Split a character list at its last `'.'`: returns
`some (before, after)` when a dot exists. -/
def splitAtLastDot : List Char → Option (List Char × List Char)
  | [] => none
  | c :: cs =>
    match splitAtLastDot cs with
    | some (pre, post) => some (c :: pre, post)
    | none => if c = '.' then some ([], cs) else none

/-- `(stem, suffix)` of a file name, following CPython's `pathlib`:
the suffix is taken at the last dot provided it is neither the first
nor the last character of the name. -/
def stemAndSuffix (name : String) : String × String :=
  match splitAtLastDot name.data with
  | some (pre, post) =>
    if pre = [] ∨ post = [] then (name, "")
    else (String.mk pre, String.mk ('.' :: post))
  | none => (name, "")

/-- `pathlib.Path(p).stem`. -/
def pathStem (p : String) : String := (stemAndSuffix (baseName p)).1

/-- `pathlib.Path(p).suffix`. -/
def pathSuffix (p : String) : String := (stemAndSuffix (baseName p)).2

/-- `s.lower()` restricted to ASCII case folding. -/
def lowerStr (s : String) : String := String.mk (s.data.map Char.toLower)

/-- `s.endswith(suffix)`. -/
def strEndsWith (s suffix : String) : Bool :=
  List.isPrefixOf suffix.data.reverse s.data.reverse

/-- `final_path.lower().endswith((".png", ".jpg", ".jpeg", ".webp"))`
(app.py line 240). -/
def isRasterPath (p : String) : Bool :=
  let l := lowerStr p
  strEndsWith l ".png" || strEndsWith l ".jpg" ||
    strEndsWith l ".jpeg" || strEndsWith l ".webp"

/-! ## Job records and the in-memory job store (app.py `jobs` dict) -/

/-- A value stored in a job's `results` dict: the code stores file-path
strings, and also two integer entries `final_width` / `final_height`
(app.py lines 243-244). -/
inductive ResultVal where
  | path (p : String)
  | num (n : Nat)
deriving DecidableEq, Repr

/-- One job record, as built by `upload` / `upload_batch` and mutated by
the processing bodies.  The three `*Setting` fields model the
`job["upscale"]`, `job["remove_bg"]`, `job["output_format"]` keys that
`batch_process` writes before submitting `run_batch_item`. -/
structure Job where
  id : String
  batchId : Option String := none
  status : String
  original : String
  originalName : String
  width : Nat := 0
  height : Nat := 0
  progress : Option String := none
  error : Option String := none
  results : List (String × ResultVal) := []
  upscaleSetting : Nat := 0
  removeBgSetting : Bool := false
  outputFormatSetting : String := "png"
deriving DecidableEq, Repr

/-- Python-dict lookup on an association list. -/
def lookupRes : List (String × ResultVal) → String → Option ResultVal
  | [], _ => none
  | (k, v) :: rest, key => if k = key then some v else lookupRes rest key

/-- Python-dict assignment: overwrite in place when the key exists
(keeping insertion order), append otherwise. -/
def insertRes (rs : List (String × ResultVal)) (k : String) (v : ResultVal) :
    List (String × ResultVal) :=
  if (rs.map Prod.fst).contains k then
    rs.map (fun kv => if kv.1 = k then (k, v) else kv)
  else rs ++ [(k, v)]

/-- The global `jobs` registry: job id → record. -/
def JobStore := List (String × Job)

/-- `jobs.get(job_id)` / `job_id in jobs`. -/
def lookupJob : List (String × Job) → String → Option Job
  | [], _ => none
  | (k, v) :: rest, key => if k = key then some v else lookupJob rest key

/-- `jobs[job_id] = job` (overwrite or append, Python-dict semantics). -/
def updateJob (js : List (String × Job)) (k : String) (v : Job) :
    List (String × Job) :=
  if (js.map Prod.fst).contains k then
    js.map (fun kv => if kv.1 = k then (k, v) else kv)
  else js ++ [(k, v)]

/-- Job record created by `upload` (app.py lines 91-100): status
`"uploaded"`, empty results, `error = None`. -/
def mkUploadedJob (jid origPath origName : String) (w h : Nat) : Job :=
  { id := jid, status := "uploaded", original := origPath,
    originalName := origName, width := w, height := h }

/-! ## External transformation providers (processor.py methods)

Each provider either returns an output path or raises; the image work
itself is outside the embedded core, so the providers are an abstract
environment of `Except`-valued functions.  `copy` is `shutil.copy2` and
`probe` is `PIL.Image.open(...).size`. -/

structure Env where
  copy : String → String → Except String Unit
  upscale : String → Nat → Except String String
  removeBackground : String → Except String String
  toSvg : String → Except String String
  toIco : String → Except String String
  probe : String → Except String (Nat × Nat)

/-- Options parsed by the `/api/process` handler (app.py lines 187-192):
`upscale` may be absent, `remove_bg` defaults to `False`, `format`
defaults to `"png"`. -/
structure ProcOptions where
  upscaleFactor : Option Nat
  removeBg : Bool
  outputFormat : String
deriving DecidableEq, Repr

/-- Exception handler of both pipeline bodies (app.py lines 248-251 and
402-405): status `error`, error message stored, progress overwritten. -/
def jobFail (j : Job) (e : String) : Job :=
  { j with status := "error", error := some e,
           progress := some ("Error: " ++ e) }

/-- `OUTPUT_DIR / f"{job_id}_work{Path(input_path).suffix}"`
(app.py line 202). -/
def workPath (jobId inputPath : String) : String :=
  "outputs/" ++ jobId ++ "_work" ++ pathSuffix inputPath

/-- Intermediate state of a pipeline run: the job record as mutated so
far and `current_path`. -/
structure RunSt where
  j : Job
  cur : String

/-- Step 1 of `run_processing` (app.py lines 212-215): runs only when
the parsed factor is present and truthy (Python `if upscale_factor:`). -/
def stepUpscale (env : Env) (factor : Option Nat) (s : RunSt) :
    Except String RunSt :=
  match factor with
  | none => .ok s
  | some k =>
    if k = 0 then .ok s
    else
      match env.upscale s.cur k with
      | .error e => .error e
      | .ok p =>
        .ok ⟨{ s.j with results := insertRes s.j.results "upscaled" (ResultVal.path p) }, p⟩

/-- Step 2 of `run_processing` (app.py lines 218-221). -/
def stepRemoveBg (env : Env) (flag : Bool) (s : RunSt) :
    Except String RunSt :=
  if flag then
    match env.removeBackground s.cur with
    | .error e => .error e
    | .ok p =>
      .ok ⟨{ s.j with results := insertRes s.j.results "no_background" (ResultVal.path p) }, p⟩
  else .ok s

/-- Step 3 of `run_processing` / `run_batch_item` (app.py lines 224-233
and 388-394): conversion runs only for the exact strings `"svg"` and
`"ico"`; any other format leaves the current path unchanged. -/
def stepConvert (env : Env) (fmt : String) (s : RunSt) :
    Except String RunSt :=
  if fmt = "svg" then
    match env.toSvg s.cur with
    | .error e => .error e
    | .ok p =>
      .ok ⟨{ s.j with results := insertRes s.j.results "svg" (ResultVal.path p) }, p⟩
  else if fmt = "ico" then
    match env.toIco s.cur with
    | .error e => .error e
    | .ok p =>
      .ok ⟨{ s.j with results := insertRes s.j.results "ico" (ResultVal.path p) }, p⟩
  else .ok s

/-- Tail of `run_processing` (app.py lines 235-244): record `final`, set
`done`, and — when the final path looks like a raster image — probe its
dimensions into `final_width` / `final_height`; a probe failure is
caught by the surrounding `except` after the job was already marked
done. -/
def finishJob (env : Env) (s : RunSt) : Job :=
  let j1 := { s.j with
    results := insertRes s.j.results "final" (ResultVal.path s.cur),
    status := "done", progress := some "¡Completado!" }
  if isRasterPath s.cur then
    match env.probe s.cur with
    | .error e => jobFail j1 e
    | .ok wh =>
      let rs := insertRes (insertRes j1.results "final_width" (ResultVal.num wh.1)) "final_height" (ResultVal.num wh.2)
      { j1 with results := rs }
  else j1

/-- Body of `run_processing` (app.py lines 197-252), applied to the job
record as it stands when the thread starts (status already
`"processing"`, progress `"Starting..."`).  Exceptions at any point
produce `jobFail` applied to the job as mutated so far, exactly like the
Python `except` clause over the in-place-mutated dict. -/
def runProcessing (env : Env) (opts : ProcOptions) (j0 : Job) : Job :=
  let wp := workPath j0.id j0.original
  match env.copy j0.original wp with
  | .error e => jobFail j0 e
  | .ok _ =>
    match stepUpscale env opts.upscaleFactor ⟨j0, wp⟩ with
    | .error e => jobFail j0 e
    | .ok s1 =>
      match stepRemoveBg env opts.removeBg s1 with
      | .error e => jobFail s1.j e
      | .ok s2 =>
        match stepConvert env opts.outputFormat s2 with
        | .error e => jobFail s2.j e
        | .ok s3 => finishJob env s3

/-! ## The `/api/process` route (app.py lines 171-257) -/

/-- Parsed JSON body of a `/api/process` request, with the handler's
defaults already applied (`remove_bg` → `False`, `format` → `"png"`). -/
structure ProcessReq where
  id : Option String
  upscale : Option Nat
  removeBg : Bool
  format : String
deriving DecidableEq, Repr

/-- Observable outcome of the synchronous part of the `process` handler:
HTTP code, body, the job store after the handler returned, and the
pipeline execution it spawned (if any) as a dedicated thread target. -/
structure ProcessResult where
  code : Nat
  body : String
  jobs : List (String × Job)
  spawned : Option (String × ProcOptions)
deriving DecidableEq, Repr

/-- Synchronous part of the `process` handler: validation, the
`processing` conflict guard, marking the job, and spawning the thread.
`req = none` models a missing or empty JSON body. -/
def processEndpoint (js : List (String × Job)) (req : Option ProcessReq) :
    ProcessResult :=
  match req with
  | none => ⟨400, "Missing job ID", js, none⟩
  | some r =>
    match r.id with
    | none => ⟨400, "Missing job ID", js, none⟩
    | some jid =>
      match lookupJob js jid with
      | none => ⟨404, "Job not found", js, none⟩
      | some job =>
        if job.status = "processing" then
          ⟨409, "Already processing", js, none⟩
        else
          let opts : ProcOptions := ⟨r.upscale, r.removeBg, r.format⟩
          let job' := { job with status := "processing", progress := some "Starting..." }
          ⟨200, "processing", updateJob js jid job', some (jid, opts)⟩

/-! ## The `/api/batch-process` route (app.py lines 331-414) -/

/-- Parsed JSON body of a `/api/batch-process` request with handler
defaults applied (`upscale` → `0`, `remove_bg` → `False`,
`format` → `"png"`). -/
structure BatchReq where
  jobIds : Option (List String)
  upscale : Nat
  removeBg : Bool
  format : String
deriving DecidableEq, Repr

/-- Observable outcome of the `batch_process` handler: HTTP code, body,
job store after return, and the job ids submitted to the worker pool in
submission order. -/
structure BatchResult where
  code : Nat
  body : String
  jobs : List (String × Job)
  submitted : List String
deriving DecidableEq, Repr

/-- Settings written onto each job before submission
(app.py lines 354-357). -/
def applyBatchSettings (j : Job) (up : Nat) (rb : Bool) (fmt : String) : Job :=
  { j with upscaleSetting := up, removeBgSetting := rb,
           outputFormatSetting := fmt }

/-- The `batch_process` handler: request validation, the
validate-all-ids-first loop (app.py lines 343-345), then per-job
settings assignment and submission. -/
def batchProcess (js : List (String × Job)) (req : Option BatchReq) :
    BatchResult :=
  match req with
  | none => ⟨400, "Missing job_ids", js, []⟩
  | some r =>
    match r.jobIds with
    | none => ⟨400, "Missing job_ids", js, []⟩
    | some ids =>
      if ids.isEmpty then ⟨400, "job_ids must be a non-empty list", js, []⟩
      else
        match ids.find? (fun i => (lookupJob js i).isNone) with
        | some missing => ⟨404, "Job " ++ missing ++ " not found", js, []⟩
        | none =>
          let js' := ids.foldl (fun acc i =>
            match lookupJob acc i with
            | some j => updateJob acc i (applyBatchSettings j r.upscale r.removeBg r.format)
            | none => acc) js
          ⟨200, "Batch processing started", js', ids⟩

/-- Background-removal step of `run_batch_item` (app.py lines 383-385):
identical to the single-job step except that the output is recorded
under the key `"background_removed"`. -/
def stepRemoveBgBatch (env : Env) (flag : Bool) (s : RunSt) :
    Except String RunSt :=
  if flag then
    match env.removeBackground s.cur with
    | .error e => .error e
    | .ok p =>
      .ok ⟨{ s.j with results := insertRes s.j.results "background_removed" (ResultVal.path p) }, p⟩
  else .ok s

/-- Body of `run_batch_item` (app.py lines 360-406): skips any job not
currently `"uploaded"`, reads its settings from the job record, uses the
original path directly (no work copy), runs the upscale step only when
the stored factor is `> 0`, stores the background-removal output under
`"background_removed"`, and never probes final dimensions. -/
def runBatchItem (env : Env) (j : Job) : Job :=
  if j.status = "uploaded" then
    let j0 := { j with status := "processing", progress := some "Starting..." }
    match stepUpscale env
        (if j0.upscaleSetting > 0 then some j0.upscaleSetting else none)
        ⟨j0, j0.original⟩ with
    | .error e => jobFail j0 e
    | .ok s1 =>
      match stepRemoveBgBatch env s1.j.removeBgSetting s1 with
      | .error e => jobFail s1.j e
      | .ok s2 =>
        match stepConvert env s2.j.outputFormatSetting s2 with
        | .error e => jobFail s2.j e
        | .ok s3 =>
          { s3.j with
            results := insertRes s3.j.results "final" (ResultVal.path s3.cur),
            status := "done", progress := some "¡Completado!" }
  else j

/-! ## The `/api/batch-status` route (app.py lines 417-448) -/

/-- Per-member entry of the batch status response. -/
structure MemberView where
  id : String
  filename : String
  status : String
  progress : String
  error : Option String
  hasResults : Bool
deriving DecidableEq, Repr

/-- Batch status response body. -/
structure BatchStatusView where
  members : List MemberView
  count : Nat
  allDone : Bool
  anyError : Bool
  anyProcessing : Bool
deriving DecidableEq, Repr

/-- One entry of the `statuses` list (app.py lines 427-434). -/
def memberView (jid : String) (j : Job) : MemberView :=
  ⟨jid, j.originalName, j.status, j.progress.getD "", j.error,
   !j.results.isEmpty⟩

/-- The `batch_status` handler: filter the store by `batch_id`, 404 on
an empty batch, else fold member statuses into the three aggregate
booleans. -/
def batchStatus (js : List (String × Job)) (batchId : String) :
    Except (Nat × String) BatchStatusView :=
  let batchJobs := js.filter (fun kv => kv.2.batchId = some batchId)
  if batchJobs.isEmpty then .error (404, "Batch not found")
  else
    let views := batchJobs.map (fun kv => memberView kv.1 kv.2)
    .ok ⟨views, views.length,
         views.all (fun s => s.status = "done"),
         views.any (fun s => s.status = "error"),
         views.any (fun s => s.status = "processing")⟩

/-! ## Result resolution: download and preview routes -/

/-- Python truthiness of a `results` value (`if not filepath`): the
empty string and the integer `0` are falsy. -/
def truthyVal : ResultVal → Bool
  | .path p => !(p = "")
  | .num n => !(n = 0)

/-- `os.path.exists(filepath)` on a stored value: string paths are
checked against the path oracle, integer values against the
file-descriptor oracle (CPython accepts both). -/
def existsVal (fsExists : String → Bool) (fdExists : Nat → Bool) :
    ResultVal → Bool
  | .path p => fsExists p
  | .num n => fdExists n

/-- The `download_with_name` resolution (app.py lines 451-465): 404 on
unknown job, 400 unless `done`, then `results[type]` with a combined
falsy-or-missing-file check; there is no special case for
`type=original`. -/
def downloadResolve (fsExists : String → Bool) (fdExists : Nat → Bool)
    (js : List (String × Job)) (jid rtype : String) :
    Except (Nat × String) ResultVal :=
  match lookupJob js jid with
  | none => .error (404, "Job not found")
  | some job =>
    if job.status = "done" then
      match lookupRes job.results rtype with
      | none => .error (404, "File not found")
      | some v =>
        if !truthyVal v || !existsVal fsExists fdExists v then
          .error (404, "File not found")
        else .ok v
    else .error (400, "Processing not complete")

/-- The `preview` resolution (app.py lines 488-503): no `done` guard,
`type=original` resolves to `job["original"]`, everything else goes via
`results[type]` with the same falsy-or-missing check. -/
def previewResolve (fsExists : String → Bool) (fdExists : Nat → Bool)
    (js : List (String × Job)) (jid rtype : String) :
    Except (Nat × String) ResultVal :=
  match lookupJob js jid with
  | none => .error (404, "Job not found")
  | some job =>
    let v : Option ResultVal :=
      if rtype = "original" then some (ResultVal.path job.original)
      else lookupRes job.results rtype
    match v with
    | none => .error (404, "File not found")
    | some v =>
      if !truthyVal v || !existsVal fsExists fdExists v then
        .error (404, "File not found")
      else .ok v

/-- `_make_download_name` (app.py lines 556-581).  Returns `none` for
the one input class on which the Python raises (`Path(int)` with a
non-zero integer stored under the requested kind). -/
def makeDownloadName (job : Job) (rtype : String) : Option String :=
  let name := pathStem job.originalName
  let suffix :=
    if rtype = "upscaled" then "_upscaled"
    else if rtype = "no_background" then "_nobg"
    else if rtype = "svg" then ""
    else if rtype = "ico" then ""
    else if rtype = "final" then "_processed"
    else ""
  let fallbackExt :=
    if rtype = "svg" then ".svg" else if rtype = "ico" then ".ico" else ".png"
  match lookupRes job.results rtype with
  | some (.path p) =>
    if p = "" then some (name ++ suffix ++ fallbackExt)
    else some (name ++ suffix ++ pathSuffix p)
  | some (.num n) =>
    if n = 0 then some (name ++ suffix ++ fallbackExt) else none
  | none => some (name ++ suffix ++ fallbackExt)

/-- Download name as the specification words it: the original upload's
base name, plus the kind-specific suffix, plus the extension of the
actual resolved artifact.  Stated from the spec for comparison with
`makeDownloadName`. -/
def kindSuffixSpec (kind : String) : String :=
  if kind = "upscaled" then "_upscaled"
  else if kind = "no_background" then "_nobg"
  else if kind = "final" then "_processed"
  else ""

/-- Spec-side download-name function (see `kindSuffixSpec`). -/
def downloadNameSpec (originalName kind artifactPath : String) : String :=
  pathStem originalName ++ kindSuffixSpec kind ++ pathSuffix artifactPath

/-! ## `ImageProcessor.process_pipeline` (processor.py lines 304-344) -/

/-- Result dict of `process_pipeline`: step keys are present exactly
when the branch ran; `steps` is the log list the method appends to. -/
structure PipelineResult where
  original : String
  steps : List String
  upscaled : Option String := none
  noBackground : Option String := none
  svg : Option String := none
  ico : Option String := none
  final : String
deriving DecidableEq, Repr

/-- `process_pipeline`: the same three-step sequence, with exceptions
propagating to the caller (no `try` in the method). -/
def processPipeline (env : Env) (imagePath : String)
    (upscaleFactor : Option Nat) (removeBg : Bool) (outputFormat : String) :
    Except String PipelineResult :=
  let afterUp : Except String (String × Option String × List String) :=
    match upscaleFactor with
    | none => .ok (imagePath, none, [])
    | some k =>
      if k = 0 then .ok (imagePath, none, [])
      else
        match env.upscale imagePath k with
        | .error e => .error e
        | .ok p => .ok (p, some p, ["upscaled"])
  match afterUp with
  | .error e => .error e
  | .ok (cur1, up1, steps1) =>
    let afterBg : Except String (String × Option String × List String) :=
      if removeBg then
        match env.removeBackground cur1 with
        | .error e => .error e
        | .ok p => .ok (p, some p, steps1 ++ ["background_removed"])
      else .ok (cur1, none, steps1)
    match afterBg with
    | .error e => .error e
    | .ok (cur2, bg2, steps2) =>
      if outputFormat = "svg" then
        match env.toSvg cur2 with
        | .error e => .error e
        | .ok p =>
          .ok { original := imagePath, steps := steps2 ++ ["converted_svg"],
                upscaled := up1, noBackground := bg2, svg := some p,
                final := p }
      else if outputFormat = "ico" then
        match env.toIco cur2 with
        | .error e => .error e
        | .ok p =>
          .ok { original := imagePath, steps := steps2 ++ ["converted_ico"],
                upscaled := up1, noBackground := bg2, ico := some p,
                final := p }
      else
        .ok { original := imagePath, steps := steps2, upscaled := up1,
              noBackground := bg2, final := cur2 }

/-! ## Submission mechanisms and the worker-pool semantics

`app.py` creates one global `ThreadPoolExecutor(max_workers=2)`
(line 16).  `batch_process` submits each `run_batch_item` to it
(line 409), while `process` starts a fresh dedicated
`threading.Thread` per trigger (lines 254-255).  The scheduler
semantics below models both admission disciplines: a worker pool
starts queued tasks in FIFO order only while fewer than `size` run,
and a dedicated thread starts running immediately on submission. -/

inductive SubmitMechanism where
  | dedicatedThread
  | workerPool (size : Nat)
deriving DecidableEq, Repr

/-- `thread = threading.Thread(target=run_processing); thread.start()`
(app.py lines 254-255). -/
def processSubmit : SubmitMechanism := .dedicatedThread

/-- `executor.submit(run_batch_item, job_id)` against
`ThreadPoolExecutor(max_workers=2)` (app.py lines 16 and 409). -/
def batchSubmit : SubmitMechanism := .workerPool 2

/-- Scheduler state: FIFO queue of admitted-but-not-started tasks and
the multiset of currently running tasks. -/
structure PoolState where
  queued : List Nat
  running : List Nat
deriving DecidableEq, Repr

/-- One scheduler transition under a given submission mechanism. -/
inductive SchedStep : SubmitMechanism → PoolState → PoolState → Prop where
  | submitPool (n t : Nat) (s : PoolState) :
      SchedStep (.workerPool n) s ⟨s.queued ++ [t], s.running⟩
  | startPool (n t : Nat) (rest : List Nat) (s : PoolState)
      (hq : s.queued = t :: rest) (hcap : s.running.length < n) :
      SchedStep (.workerPool n) s ⟨rest, s.running ++ [t]⟩
  | submitThread (t : Nat) (s : PoolState) :
      SchedStep .dedicatedThread s ⟨s.queued, s.running ++ [t]⟩
  | finish (m : SubmitMechanism) (t : Nat) (s : PoolState)
      (h : t ∈ s.running) :
      SchedStep m s ⟨s.queued, s.running.erase t⟩

/-- Reachability under a fixed submission mechanism. -/
def SchedReachable (m : SubmitMechanism) : PoolState → PoolState → Prop :=
  Relation.ReflTransGen (SchedStep m)

/-- Scheduler state at process start: nothing queued, nothing running. -/
def initPoolState : PoolState := ⟨[], []⟩

/-! ## Concrete instances used to evaluate the development -/

/-- Provider environment in which every external call succeeds, with
output paths shaped like the ones `processor._make_output_path`
produces. -/
def demoEnv : Env :=
  { copy := fun _ _ => .ok ()
    upscale := fun p k => .ok (pathStem p ++ "_x" ++ toString k ++ ".png")
    removeBackground := fun p => .ok (pathStem p ++ "_nobg.png")
    toSvg := fun p => .ok (pathStem p ++ ".svg")
    toIco := fun p => .ok (pathStem p ++ ".ico")
    probe := fun _ => .ok (64, 32) }

/-- Provider environment in which the very first external call
(the `shutil.copy2` work copy) raises `"boom"`. -/
def failEnv : Env :=
  { copy := fun _ _ => .error "boom"
    upscale := fun _ _ => .error "boom"
    removeBackground := fun _ => .error "boom"
    toSvg := fun _ => .error "boom"
    toIco := fun _ => .error "boom"
    probe := fun _ => .error "boom" }

/-- Provider environment where the work copy and upscaling succeed but
background removal raises `"bg boom"`. -/
def bgFailEnv : Env :=
  { copy := fun _ _ => .ok ()
    upscale := fun _ k => .ok ("outputs/up" ++ toString k ++ ".png")
    removeBackground := fun _ => .error "bg boom"
    toSvg := fun p => .ok (pathStem p ++ ".svg")
    toIco := fun p => .ok (pathStem p ++ ".ico")
    probe := fun _ => .ok (64, 32) }

/-- A job as `process` hands it to `run_processing`: already marked
`processing`. -/
def demoProcJob : Job :=
  { id := "j1", status := "processing", original := "uploads/j1.png",
    originalName := "cat.png", progress := some "Starting..." }

/-- A freshly uploaded batch member with background removal requested,
as `batch_process` submits it. -/
def demoBatchJob : Job :=
  { id := "j2", batchId := some "b", status := "uploaded",
    original := "uploads/j2.png", originalName := "dog.png",
    removeBgSetting := true }

/-- A job stuck in `processing`, for the conflict-guard instances. -/
def busyJob : Job :=
  { id := "j1", status := "processing", original := "uploads/j1.png",
    originalName := "cat.png" }

/-- A completed job whose `final` artifact is a PNG produced from a
JPEG original — the spec's `cat.jpg` example. -/
def doneJob : Job :=
  { id := "j1", status := "done", original := "uploads/j1.jpg",
    originalName := "cat.jpg", progress := some "¡Completado!",
    results := [("final", ResultVal.path "outputs/j1_work.png")] }

/-- Job store for the stale-error scenario: the single job failed its
first run (via `failEnv`). -/
def staleStore : List (String × Job) :=
  [("j1", runProcessing failEnv ⟨none, false, "png"⟩ demoProcJob)]

/-- Outcome of re-triggering `/api/process` on the failed job. -/
def staleRetrigger : ProcessResult :=
  processEndpoint staleStore (some ⟨some "j1", none, false, "png"⟩)

/-- The job record the re-trigger marked `processing` again. -/
def staleJob2 : Job := (lookupJob staleRetrigger.jobs "j1").getD demoProcJob

/-- The job after its second, fully successful run. -/
def staleJob3 : Job := runProcessing demoEnv ⟨none, false, "png"⟩ staleJob2

/-- Two-member batch store: one member done, one still processing. -/
def c8Store : List (String × Job) :=
  [("a", { id := "a", batchId := some "b", status := "done",
           original := "uploads/a.png", originalName := "a.png",
           results := [("final", ResultVal.path "outputs/a_work.png")] }),
   ("c", { id := "c", batchId := some "b", status := "processing",
           original := "uploads/c.png", originalName := "c.png" })]

/-- The batch-status view computed for `c8Store`. -/
def c8View : BatchStatusView :=
  ⟨[⟨"a", "a.png", "done", "", none, true⟩,
    ⟨"c", "c.png", "processing", "", none, false⟩],
   2, false, false, true⟩

/-- The step-keys the claim's words predict for a single-job run: one
key per requested step (in pipeline order) plus always `final`. -/
def requestedKeysSingle (opts : ProcOptions) : List String :=
  (match opts.upscaleFactor with
   | some k => if k = 0 then [] else ["upscaled"]
   | none => []) ++
  (if opts.removeBg then ["no_background"] else []) ++
  (if opts.outputFormat = "svg" then ["svg"]
   else if opts.outputFormat = "ico" then ["ico"] else []) ++
  ["final"]

/-- The step-keys a successful batch-item run records: the batch body
stores background removal under `background_removed`. -/
def requestedKeysBatch (up : Nat) (rb : Bool) (fmt : String) : List String :=
  (if up > 0 then ["upscaled"] else []) ++
  (if rb then ["background_removed"] else []) ++
  (if fmt = "svg" then ["svg"] else if fmt = "ico" then ["ico"] else []) ++
  ["final"]

/-! ## Helper lemmas -/

/-- Inserting a key that is not yet present appends the binding. -/
theorem insertRes_keys_new (rs : List (String × ResultVal)) (k : String)
    (v : ResultVal) (h : (rs.map Prod.fst).contains k = false) :
    insertRes rs k v = rs ++ [(k, v)] := by
  unfold insertRes
  rw [h]
  rfl

/-- A worker pool of size `n` never has more than `n` tasks running in
any state reachable from the empty scheduler state. -/
theorem pool_running_bound (n : Nat) (s : PoolState)
    (h : Relation.ReflTransGen (SchedStep (.workerPool n)) initPoolState s) :
    s.running.length ≤ n := by
  induction h with
  | refl => simp [initPoolState]
  | tail hab hbc ih =>
    cases hbc with
    | submitPool m t s => exact ih
    | startPool m t rest s hq hcap => simpa using hcap
    | finish m t s hmem =>
      have := List.length_erase_of_mem hmem
      simp only [this]
      omega

/-! ## Claim C1 -/

/-- Claim C1, as stated, is false: `/process` does not submit to the
bounded pool.  `process` spawns a dedicated thread per trigger
(app.py lines 254-255) while only `batch_process` uses the
`ThreadPoolExecutor`, and under the dedicated-thread discipline a state
with three concurrently running pipeline executions is reachable,
exceeding the pool size 2. -/
theorem c1_counterexample :
    processSubmit ≠ batchSubmit ∧
    SchedReachable processSubmit initPoolState ⟨[], [0, 1, 2]⟩ ∧
    2 < (PoolState.mk [] [0, 1, 2]).running.length := by
  refine ⟨by decide, ?_, by decide⟩
  exact Relation.ReflTransGen.tail
    (Relation.ReflTransGen.tail
      (Relation.ReflTransGen.tail Relation.ReflTransGen.refl
        (SchedStep.submitThread 0 initPoolState))
      (SchedStep.submitThread 1 ⟨[], [0]⟩))
    (SchedStep.submitThread 2 ⟨[], [0, 1]⟩)

/-- Claim C1 (amended): only the batch path `/batch-process` admits
pipeline executions through the bounded fixed-size worker pool (size 2,
FIFO); under that pool no reachable scheduler state runs more than 2
executions at once.  The single-job `/process` path instead spawns a
dedicated thread per trigger, so its executions are not bounded by the
pool. -/
theorem c1_pool_bound (s : PoolState)
    (h : SchedReachable batchSubmit initPoolState s) :
    batchSubmit = SubmitMechanism.workerPool 2 ∧
    processSubmit = SubmitMechanism.dedicatedThread ∧
    s.running.length ≤ 2 :=
  ⟨rfl, rfl, pool_running_bound 2 s h⟩

/-- Witness for `c1_pool_bound` at the initial state. -/
theorem c1_pool_bound_witness :
    batchSubmit = SubmitMechanism.workerPool 2 ∧
    processSubmit = SubmitMechanism.dedicatedThread ∧
    initPoolState.running.length ≤ 2 :=
  c1_pool_bound initPoolState Relation.ReflTransGen.refl

/-! ## Claim C2 -/

/-- Claim C2: triggering `/process` on a job whose status is
`"processing"` yields HTTP 409 and returns the job store — hence the
job's status, progress, results and error — entirely unchanged, and
spawns no pipeline execution. -/
theorem c2_conflict_rejected (js : List (String × Job)) (r : ProcessReq)
    (jid : String) (job : Job) (hid : r.id = some jid)
    (hjob : lookupJob js jid = some job)
    (hstatus : job.status = "processing") :
    processEndpoint js (some r) = ⟨409, "Already processing", js, none⟩ := by
  simp [processEndpoint, hid, hjob, hstatus]

/-- Witness for `c2_conflict_rejected` on a concrete busy job. -/
theorem c2_conflict_rejected_witness :
    processEndpoint [("j1", busyJob)] (some ⟨some "j1", none, false, "png"⟩)
      = ⟨409, "Already processing", [("j1", busyJob)], none⟩ :=
  c2_conflict_rejected [("j1", busyJob)] ⟨some "j1", none, false, "png"⟩
    "j1" busyJob rfl (by decide) (by decide)

/-! ## Claim C10 -/

/-- Claim C10: when any requested id is unknown, `/batch-process`
returns 404 with the job store untouched and submits nothing to the
worker pool, including for the requested ids that do exist. -/
theorem c10_batch_validation (js : List (String × Job)) (r : BatchReq)
    (ids : List String) (jid : String) (hids : r.jobIds = some ids)
    (hmem : jid ∈ ids) (hmissing : lookupJob js jid = none) :
    (batchProcess js (some r)).code = 404 ∧
    (batchProcess js (some r)).jobs = js ∧
    (batchProcess js (some r)).submitted = [] := by
  have hne : ids.isEmpty = false := by
    cases ids with
    | nil => cases hmem
    | cons a l => rfl
  cases hfind : ids.find? (fun i => (lookupJob js i).isNone) with
  | none =>
    exfalso
    have := List.find?_eq_none.mp hfind jid hmem
    simp [hmissing] at this
  | some missing =>
    simp [batchProcess, hids, hne, hfind]

/-- Witness for `c10_batch_validation`: a request naming one known and
one unknown job. -/
theorem c10_batch_validation_witness :
    (batchProcess [("j1", busyJob)]
        (some ⟨some ["j1", "ghost"], 0, false, "png"⟩)).code = 404 ∧
    (batchProcess [("j1", busyJob)]
        (some ⟨some ["j1", "ghost"], 0, false, "png"⟩)).jobs
      = [("j1", busyJob)] ∧
    (batchProcess [("j1", busyJob)]
        (some ⟨some ["j1", "ghost"], 0, false, "png"⟩)).submitted = [] :=
  c10_batch_validation [("j1", busyJob)] ⟨some ["j1", "ghost"], 0, false, "png"⟩
    ["j1", "ghost"] "ghost" rfl (by decide) (by decide)

/-- A key not among the stored keys is not `contains`-found. -/
theorem keys_contains_eq_false (l : List String) (k : String) (h : k ∉ l) :
    l.contains k = false := by
  simpa using h

/-- Inserting an absent key appends, stated with `∉`. -/
theorem insertRes_append_of_not_mem (rs : List (String × ResultVal))
    (k : String) (v : ResultVal) (h : k ∉ rs.map Prod.fst) :
    insertRes rs k v = rs ++ [(k, v)] :=
  insertRes_keys_new rs k v (keys_contains_eq_false _ _ h)

/-- Looking up an absent key yields `none`. -/
theorem lookupRes_eq_none_of_not_mem (rs : List (String × ResultVal))
    (k : String) (h : k ∉ rs.map Prod.fst) :
    lookupRes rs k = none := by
  induction rs with
  | nil => rfl
  | cons a t ih =>
    simp only [List.map_cons, List.mem_cons] at h
    push_neg at h
    simp [lookupRes, Ne.symm h.1, ih h.2]

/-- An existing binding survives appending further bindings. -/
theorem lookupRes_append_of_some (rs l : List (String × ResultVal))
    (k : String) (v : ResultVal) (h : lookupRes rs k = some v) :
    lookupRes (rs ++ l) k = some v := by
  induction rs with
  | nil => simp [lookupRes] at h
  | cons a t ih =>
    by_cases hk : a.1 = k
    · simpa [lookupRes, hk] using h
    · simp [lookupRes, hk] at h ⊢
      exact ih h

/-- Appending a fresh binding makes it visible. -/
theorem lookupRes_append_new (rs : List (String × ResultVal))
    (k : String) (v : ResultVal) (h : k ∉ rs.map Prod.fst) :
    lookupRes (rs ++ [(k, v)]) k = some v := by
  induction rs with
  | nil => simp [lookupRes]
  | cons a t ih =>
    simp only [List.map_cons, List.mem_cons] at h
    push_neg at h
    simp [lookupRes, Ne.symm h.1, ih h.2]

/-- Lookup distributes over append, first list first. -/
theorem lookupRes_append (rs l : List (String × ResultVal)) (k : String) :
    lookupRes (rs ++ l) k
      = match lookupRes rs k with
        | some v => some v
        | none => lookupRes l k := by
  induction rs with
  | nil => simp [lookupRes]
  | cons a t ih =>
    by_cases hk : a.1 = k <;> simp [lookupRes, hk, ih]

/-- Overwriting one key leaves lookups of other keys unchanged. -/
theorem lookupRes_map_update_other (rs : List (String × ResultVal))
    (k k' : String) (v' : ResultVal) (h : k ≠ k') :
    lookupRes (rs.map (fun kv => if kv.1 = k' then (k', v') else kv)) k
      = lookupRes rs k := by
  induction rs with
  | nil => rfl
  | cons a t ih =>
    by_cases ha : a.1 = k'
    · rw [List.map_cons, if_pos ha]
      simp [lookupRes, Ne.symm h, ha, ih]
    · rw [List.map_cons, if_neg ha]
      simp [lookupRes, ih]

/-- Inserting under one key leaves lookups of other keys unchanged. -/
theorem lookupRes_insert_other (rs : List (String × ResultVal))
    (k k' : String) (v' : ResultVal) (h : k ≠ k') :
    lookupRes (insertRes rs k' v') k = lookupRes rs k := by
  unfold insertRes
  split
  · exact lookupRes_map_update_other rs k k' v' h
  · rw [lookupRes_append]
    cases hlk : lookupRes rs k <;> simp [lookupRes, Ne.symm h]

/-- Success analysis of the upscale step: either skipped (absent or
zero factor) or the provider succeeded and the output was recorded
under `"upscaled"`. -/
theorem stepUpscale_ok (env : Env) (uf : Option Nat) (s s' : RunSt)
    (h : stepUpscale env uf s = .ok s') :
    (s' = s ∧ (uf = none ∨ uf = some 0)) ∨
    (∃ k p, uf = some k ∧ k ≠ 0 ∧ env.upscale s.cur k = .ok p ∧
      s' = ⟨{ s.j with
        results := insertRes s.j.results "upscaled" (ResultVal.path p) },
        p⟩) := by
  cases uf with
  | none =>
    left
    simp [stepUpscale] at h
    exact ⟨h.symm, Or.inl rfl⟩
  | some k =>
    by_cases hk : k = 0
    · subst hk
      left
      simp [stepUpscale] at h
      exact ⟨h.symm, Or.inr rfl⟩
    · cases hup : env.upscale s.cur k with
      | error e => simp [stepUpscale, hk, hup] at h
      | ok p =>
        right
        refine ⟨k, p, rfl, hk, hup, ?_⟩
        simp [stepUpscale, hk, hup] at h
        exact h.symm

/-- Success analysis of the background-removal step. -/
theorem stepRemoveBg_ok (env : Env) (flag : Bool) (s s' : RunSt)
    (h : stepRemoveBg env flag s = .ok s') :
    (s' = s ∧ flag = false) ∨
    (∃ p, flag = true ∧ env.removeBackground s.cur = .ok p ∧
      s' = ⟨{ s.j with
        results := insertRes s.j.results "no_background" (ResultVal.path p) },
        p⟩) := by
  cases flag with
  | false =>
    left
    simp [stepRemoveBg] at h
    exact ⟨h.symm, rfl⟩
  | true =>
    cases hbg : env.removeBackground s.cur with
    | error e => simp [stepRemoveBg, hbg] at h
    | ok p =>
      right
      refine ⟨p, rfl, rfl, ?_⟩
      simp [stepRemoveBg, hbg] at h
      exact h.symm

/-- Success analysis of the conversion step: skipped for every format
other than exactly `"svg"` or `"ico"`. -/
theorem stepConvert_ok (env : Env) (fmt : String) (s s' : RunSt)
    (h : stepConvert env fmt s = .ok s') :
    (s' = s ∧ fmt ≠ "svg" ∧ fmt ≠ "ico") ∨
    (∃ p, fmt = "svg" ∧ env.toSvg s.cur = .ok p ∧
      s' = ⟨{ s.j with
        results := insertRes s.j.results "svg" (ResultVal.path p) }, p⟩) ∨
    (∃ p, fmt = "ico" ∧ env.toIco s.cur = .ok p ∧
      s' = ⟨{ s.j with
        results := insertRes s.j.results "ico" (ResultVal.path p) }, p⟩) := by
  by_cases hs : fmt = "svg"
  · subst hs
    cases hc : env.toSvg s.cur with
    | error e => simp [stepConvert, hc] at h
    | ok p =>
      right; left
      refine ⟨p, rfl, rfl, ?_⟩
      simp [stepConvert, hc] at h
      exact h.symm
  · by_cases hi : fmt = "ico"
    · subst hi
      cases hc : env.toIco s.cur with
      | error e => simp [stepConvert, hs, hc] at h
      | ok p =>
        right; right
        refine ⟨p, rfl, rfl, ?_⟩
        simp [stepConvert, hs, hc] at h
        exact h.symm
    · left
      simp [stepConvert, hs, hi] at h
      exact ⟨h.symm, hs, hi⟩

/-- A run that ends with status `"done"` went through all four stages
successfully and is the `finishJob` of the final state. -/
theorem runProcessing_done (env : Env) (opts : ProcOptions) (j : Job)
    (h : (runProcessing env opts j).status = "done") :
    ∃ s1 s2 s3,
      env.copy j.original (workPath j.id j.original) = .ok () ∧
      stepUpscale env opts.upscaleFactor ⟨j, workPath j.id j.original⟩
        = .ok s1 ∧
      stepRemoveBg env opts.removeBg s1 = .ok s2 ∧
      stepConvert env opts.outputFormat s2 = .ok s3 ∧
      runProcessing env opts j = finishJob env s3 := by
  cases hcopy : env.copy j.original (workPath j.id j.original) with
  | error e =>
    exfalso
    simp only [runProcessing, hcopy] at h
    simp [jobFail] at h
  | ok u =>
    cases hs1 : stepUpscale env opts.upscaleFactor
        ⟨j, workPath j.id j.original⟩ with
    | error e =>
      exfalso
      simp only [runProcessing, hcopy, hs1] at h
      simp [jobFail] at h
    | ok s1 =>
      cases hs2 : stepRemoveBg env opts.removeBg s1 with
      | error e =>
        exfalso
        simp only [runProcessing, hcopy, hs1, hs2] at h
        simp [jobFail] at h
      | ok s2 =>
        cases hs3 : stepConvert env opts.outputFormat s2 with
        | error e =>
          exfalso
          simp only [runProcessing, hcopy, hs1, hs2, hs3] at h
          simp [jobFail] at h
        | ok s3 =>
          refine ⟨s1, s2, s3, rfl, rfl, hs2, hs3, ?_⟩
          simp only [runProcessing, hcopy, hs1, hs2, hs3]

/-- `finishJob` on a state whose results do not yet use the final keys:
with status `"done"` it recorded `final` (and, for raster final paths,
the probed dimensions) and touched nothing else. -/
theorem finishJob_done (env : Env) (s : RunSt)
    (hf : "final" ∉ s.j.results.map Prod.fst)
    (hw : "final_width" ∉ s.j.results.map Prod.fst)
    (hh : "final_height" ∉ s.j.results.map Prod.fst)
    (hdone : (finishJob env s).status = "done") :
    (finishJob env s).error = s.j.error ∧
    lookupRes (finishJob env s).results "final"
      = some (ResultVal.path s.cur) ∧
    (finishJob env s).results.map Prod.fst
      = s.j.results.map Prod.fst ++ ["final"] ++
        (if isRasterPath s.cur then ["final_width", "final_height"]
         else []) ∧
    (∀ k, k ≠ "final" → k ≠ "final_width" → k ≠ "final_height" →
      lookupRes (finishJob env s).results k = lookupRes s.j.results k) := by
  have hins : insertRes s.j.results "final" (ResultVal.path s.cur)
      = s.j.results ++ [("final", ResultVal.path s.cur)] :=
    insertRes_append_of_not_mem _ _ _ hf
  by_cases hr : isRasterPath s.cur
  · cases hp : env.probe s.cur with
    | error e => simp [finishJob, hins, hr, hp, jobFail] at hdone
    | ok wh =>
      have h1 : ("final_width" : String)
          ∉ (s.j.results ++ [("final", ResultVal.path s.cur)]).map Prod.fst := by
        simp [hw]
      have hins2 := insertRes_append_of_not_mem
        (s.j.results ++ [("final", ResultVal.path s.cur)])
        "final_width" (ResultVal.num wh.1) h1
      have h2 : ("final_height" : String)
          ∉ (s.j.results ++ [("final", ResultVal.path s.cur)]
             ++ [("final_width", ResultVal.num wh.1)]).map Prod.fst := by
        simp [hh]
      have hins3 := insertRes_append_of_not_mem _ "final_height"
        (ResultVal.num wh.2) h2
      refine ⟨?_, ?_, ?_, ?_⟩
      · simp [finishJob, hr, hp]
      · have hlk : lookupRes (s.j.results ++ [("final", ResultVal.path s.cur)])
            "final" = some (ResultVal.path s.cur) :=
          lookupRes_append_new _ _ _ hf
        simp only [finishJob, hr, if_true, hp, hins]
        rw [hins2, hins3]
        exact lookupRes_append_of_some _ _ _ _
          (lookupRes_append_of_some _ _ _ _ hlk)
      · simp only [finishJob, hr, if_true, hp, hins]
        rw [hins2, hins3]
        simp [hr]
      · intro k hk1 hk2 hk3
        simp [finishJob, hr, hp, lookupRes_insert_other, hk1, hk2, hk3]
  · refine ⟨?_, ?_, ?_, ?_⟩
    · simp [finishJob, hr]
    · simp only [finishJob, hr, if_false, hins]
      simpa using lookupRes_append_new _ _ _ hf
    · simp only [finishJob, hr, if_false, hins]
      simp [hr]
    · intro k hk1 hk2 hk3
      simp [finishJob, hr, lookupRes_insert_other, hk1, hk2, hk3]

/-! ## Claim C6 -/

/-- Claim C6, as stated, is false: the download route has no special
case for the kind `"original"`.  On a done job whose source file
exists, requesting the kind `"original"` from the download route yields
404 instead of resolving to the job's source path. -/
theorem c6_counterexample :
    downloadResolve (fun _ => true) (fun _ => true) [("j1", doneJob)]
        "j1" "original" = .error (404, "File not found") ∧
    (lookupJob [("j1", doneJob)] "j1").map Job.original
      = some "uploads/j1.jpg" ∧
    doneJob.status = "done" :=
  ⟨rfl, rfl, rfl⟩

/-- Claim C6 (amended): for every done job, the download route resolves
a requested kind solely from the `results` map — absent kinds and
missing files yield 404 with no fallback, present path entries whose
file exists are returned as-is; the `"original"`-resolves-to-source
special case exists only on the preview route. -/
theorem c6_resolution (fsExists : String → Bool) (fdExists : Nat → Bool)
    (js : List (String × Job)) (jid rtype : String) (job : Job)
    (hjob : lookupJob js jid = some job) :
    (job.status = "done" → lookupRes job.results rtype = none →
      downloadResolve fsExists fdExists js jid rtype
        = .error (404, "File not found")) ∧
    (∀ p, job.status = "done" →
      lookupRes job.results rtype = some (ResultVal.path p) → p ≠ "" →
      fsExists p = true →
      downloadResolve fsExists fdExists js jid rtype
        = .ok (ResultVal.path p)) ∧
    (∀ p, job.status = "done" →
      lookupRes job.results rtype = some (ResultVal.path p) →
      fsExists p = false →
      downloadResolve fsExists fdExists js jid rtype
        = .error (404, "File not found")) ∧
    (rtype = "original" → job.original ≠ "" →
      fsExists job.original = true →
      previewResolve fsExists fdExists js jid rtype
        = .ok (ResultVal.path job.original)) := by
  refine ⟨?_, ?_, ?_, ?_⟩ <;> intros <;>
    simp_all [downloadResolve, previewResolve, truthyVal, existsVal]

/-- Witness for `c6_resolution` on the concrete done job. -/
theorem c6_resolution_witness :
    downloadResolve (fun _ => true) (fun _ => true) [("j1", doneJob)]
        "j1" "final" = .ok (ResultVal.path "outputs/j1_work.png") ∧
    downloadResolve (fun _ => true) (fun _ => true) [("j1", doneJob)]
        "j1" "svg" = .error (404, "File not found") ∧
    previewResolve (fun _ => true) (fun _ => true) [("j1", doneJob)]
        "j1" "original" = .ok (ResultVal.path "uploads/j1.jpg") := by
  refine ⟨?_, ?_, ?_⟩
  · exact (c6_resolution (fun _ => true) (fun _ => true) [("j1", doneJob)]
      "j1" "final" doneJob (by decide)).2.1 "outputs/j1_work.png" rfl
      (by decide) (by decide) rfl
  · exact (c6_resolution (fun _ => true) (fun _ => true) [("j1", doneJob)]
      "j1" "svg" doneJob (by decide)).1 rfl (by decide)
  · exact (c6_resolution (fun _ => true) (fun _ => true) [("j1", doneJob)]
      "j1" "original" doneJob (by decide)).2.2.2 rfl (by decide) rfl

/-! ## Claim C7 -/

/-- Claim C7: for each of the five result kinds, the download filename
is the original upload's stem, plus the kind-specific suffix
(`_upscaled`, `_nobg`, none, none, `_processed`), plus the extension of
the actual resolved artifact file — exactly the spec-side
`downloadNameSpec`. -/
theorem c7_download_name (job : Job) (rtype p : String)
    (hkind : rtype = "upscaled" ∨ rtype = "no_background" ∨
      rtype = "svg" ∨ rtype = "ico" ∨ rtype = "final")
    (hlk : lookupRes job.results rtype = some (ResultVal.path p))
    (hp : p ≠ "") :
    makeDownloadName job rtype
      = some (downloadNameSpec job.originalName rtype p) := by
  rcases hkind with h | h | h | h | h <;> subst h <;>
    simp [makeDownloadName, downloadNameSpec, kindSuffixSpec, hlk, hp]

/-- Witness for `c7_download_name`: kind `final` on original `cat.jpg`
with a PNG final artifact yields `cat_processed.png`. -/
theorem c7_download_name_witness :
    makeDownloadName doneJob "final"
      = some (downloadNameSpec "cat.jpg" "final" "outputs/j1_work.png") ∧
    downloadNameSpec "cat.jpg" "final" "outputs/j1_work.png"
      = "cat_processed.png" := by
  constructor
  · exact c7_download_name doneJob "final" "outputs/j1_work.png"
      (Or.inr (Or.inr (Or.inr (Or.inr rfl)))) (by decide) (by decide)
  · decide

/-! ## Claim C8 -/

/-- Claim C8: on a non-empty batch, `all_done` holds iff every member
is `done`, `any_error` iff some member is `error`, `any_processing` iff
some member is `processing`, and the response carries each member's
status/progress/error/has-results view. -/
theorem c8_batch_status (js : List (String × Job)) (bid : String)
    (v : BatchStatusView) (hok : batchStatus js bid = .ok v) :
    (v.allDone = true ↔
      ∀ kv ∈ js, kv.2.batchId = some bid → kv.2.status = "done") ∧
    (v.anyError = true ↔
      ∃ kv ∈ js, kv.2.batchId = some bid ∧ kv.2.status = "error") ∧
    (v.anyProcessing = true ↔
      ∃ kv ∈ js, kv.2.batchId = some bid ∧ kv.2.status = "processing") ∧
    v.members = (js.filter (fun kv => kv.2.batchId = some bid)).map
      (fun kv => memberView kv.1 kv.2) := by
  simp only [batchStatus] at hok
  split at hok
  · simp at hok
  · injection hok with h
    subst h
    refine ⟨?_, ?_, ?_, rfl⟩
    · simp only [List.all_eq_true, List.mem_map, List.mem_filter,
        memberView, decide_eq_true_eq, Prod.exists, forall_exists_index,
        and_imp]
      constructor
      · intro H kv hm hb
        exact H _ kv.1 kv.2 hm hb rfl
      · intro H x a b hm hb hx
        subst hx
        exact H (a, b) hm hb
    · simp only [List.any_eq_true, List.mem_map, List.mem_filter,
        memberView, decide_eq_true_eq, Prod.exists]
      constructor
      · rintro ⟨x, ⟨a, b, ⟨hm, hb⟩, hx⟩, hs⟩
        subst hx
        exact ⟨a, b, hm, hb, hs⟩
      · rintro ⟨a, b, hm, hb, hs⟩
        exact ⟨_, ⟨a, b, ⟨hm, hb⟩, rfl⟩, hs⟩
    · simp only [List.any_eq_true, List.mem_map, List.mem_filter,
        memberView, decide_eq_true_eq, Prod.exists]
      constructor
      · rintro ⟨x, ⟨a, b, ⟨hm, hb⟩, hx⟩, hs⟩
        subst hx
        exact ⟨a, b, hm, hb, hs⟩
      · rintro ⟨a, b, hm, hb, hs⟩
        exact ⟨_, ⟨a, b, ⟨hm, hb⟩, rfl⟩, hs⟩

/-- Witness for `c8_batch_status` on the two-member demo batch. -/
theorem c8_batch_status_witness :
    (c8View.allDone = true ↔
      ∀ kv ∈ c8Store, kv.2.batchId = some "b" → kv.2.status = "done") ∧
    (c8View.anyError = true ↔
      ∃ kv ∈ c8Store, kv.2.batchId = some "b" ∧ kv.2.status = "error") ∧
    (c8View.anyProcessing = true ↔
      ∃ kv ∈ c8Store, kv.2.batchId = some "b" ∧ kv.2.status = "processing") ∧
    c8View.members = (c8Store.filter (fun kv => kv.2.batchId = some "b")).map
      (fun kv => memberView kv.1 kv.2) :=
  c8_batch_status c8Store "b" c8View rfl

/-- Success analysis of the batch background-removal step. -/
theorem stepRemoveBgBatch_ok (env : Env) (flag : Bool) (s s' : RunSt)
    (h : stepRemoveBgBatch env flag s = .ok s') :
    (s' = s ∧ flag = false) ∨
    (∃ p, flag = true ∧ env.removeBackground s.cur = .ok p ∧
      s' = ⟨{ s.j with
        results := insertRes s.j.results "background_removed"
          (ResultVal.path p) }, p⟩) := by
  cases flag with
  | false =>
    left
    simp [stepRemoveBgBatch] at h
    exact ⟨h.symm, rfl⟩
  | true =>
    cases hbg : env.removeBackground s.cur with
    | error e => simp [stepRemoveBgBatch, hbg] at h
    | ok p =>
      right
      refine ⟨p, rfl, rfl, ?_⟩
      simp [stepRemoveBgBatch, hbg] at h
      exact h.symm

/-- A batch-item run on an `"uploaded"` job that ends `"done"` went
through the three steps successfully. -/
theorem runBatchItem_done (env : Env) (j : Job)
    (hstat : j.status = "uploaded")
    (h : (runBatchItem env j).status = "done") :
    ∃ s1 s2 s3 : RunSt,
      stepUpscale env
        (if j.upscaleSetting > 0 then some j.upscaleSetting else none)
        ⟨{ j with status := "processing", progress := some "Starting..." },
          j.original⟩ = .ok s1 ∧
      stepRemoveBgBatch env s1.j.removeBgSetting s1 = .ok s2 ∧
      stepConvert env s2.j.outputFormatSetting s2 = .ok s3 ∧
      runBatchItem env j
        = { s3.j with
            results := insertRes s3.j.results "final" (ResultVal.path s3.cur),
            status := "done", progress := some "¡Completado!" } := by
  cases hs1 : stepUpscale env
      (if j.upscaleSetting > 0 then some j.upscaleSetting else none)
      ⟨{ j with status := "processing", progress := some "Starting..." },
        j.original⟩ with
  | error e =>
    exfalso
    simp only [runBatchItem, hstat, eq_self_iff_true, if_true, hs1] at h
    simp [jobFail] at h
  | ok s1 =>
    cases hs2 : stepRemoveBgBatch env s1.j.removeBgSetting s1 with
    | error e =>
      exfalso
      simp only [runBatchItem, hstat, eq_self_iff_true, if_true, hs1,
        hs2] at h
      simp [jobFail] at h
    | ok s2 =>
      cases hs3 : stepConvert env s2.j.outputFormatSetting s2 with
      | error e =>
        exfalso
        simp only [runBatchItem, hstat, eq_self_iff_true, if_true, hs1,
          hs2, hs3] at h
        simp [jobFail] at h
      | ok s3 =>
        refine ⟨s1, s2, s3, rfl, hs2, hs3, ?_⟩
        simp only [runBatchItem, hstat, eq_self_iff_true, if_true, hs1,
          hs2, hs3]

/-! ## Claim C3 -/

/-- Claim C3, as stated, is false: a plain successful run (no steps
requested, PNG output) leaves not only `final` but also `final_width`
and `final_height` in the results map, and a successful batch run with
background removal stores the key `background_removed`, not
`no_background`. -/
theorem c3_counterexample :
    (runProcessing demoEnv ⟨none, false, "png"⟩ demoProcJob).status
      = "done" ∧
    (runProcessing demoEnv ⟨none, false, "png"⟩ demoProcJob).results.map
      Prod.fst = ["final", "final_width", "final_height"] ∧
    (runBatchItem demoEnv demoBatchJob).status = "done" ∧
    (runBatchItem demoEnv demoBatchJob).results.map Prod.fst
      = ["background_removed", "final"] := by
  decide

/-- Claim C3 (amended): starting from an empty results map, a run that
completes successfully records exactly the keys of the requested steps
plus `final` — except that the single-job path additionally records
`final_width` and `final_height` whenever the final artifact path has a
raster extension, and the batch path names the background-removal key
`background_removed` instead of `no_background`. -/
theorem c3_result_keys :
    (∀ (env : Env) (opts : ProcOptions) (j : Job), j.results = [] →
      (runProcessing env opts j).status = "done" →
      ∃ p, lookupRes (runProcessing env opts j).results "final"
          = some (ResultVal.path p) ∧
        (runProcessing env opts j).results.map Prod.fst
          = requestedKeysSingle opts ++
            (if isRasterPath p then ["final_width", "final_height"]
             else [])) ∧
    (∀ (env : Env) (j : Job), j.results = [] → j.status = "uploaded" →
      (runBatchItem env j).status = "done" →
      (runBatchItem env j).results.map Prod.fst
        = requestedKeysBatch j.upscaleSetting j.removeBgSetting
            j.outputFormatSetting) := by
  constructor
  · intro env opts j hres hdone
    obtain ⟨s1, s2, s3, hcopy, hs1, hs2, hs3, hrun⟩ :=
      runProcessing_done env opts j hdone
    rw [hrun] at hdone ⊢
    rcases stepUpscale_ok _ _ _ _ hs1 with ⟨rfl, huf | huf⟩ |
        ⟨k, p1, huf, hk, hup, rfl⟩ <;>
      rcases stepRemoveBg_ok _ _ _ _ hs2 with ⟨rfl, hrb⟩ |
          ⟨p2, hrb, hbg, rfl⟩ <;>
        rcases stepConvert_ok _ _ _ _ hs3 with ⟨rfl, hsv, hic⟩ |
            ⟨p3, hfmt, hcv, rfl⟩ | ⟨p3, hfmt, hcv, rfl⟩ <;>
    · obtain ⟨herr, hlk, hkeys, hpres⟩ := finishJob_done env _
        (by simp [hres, insertRes]) (by simp [hres, insertRes])
        (by simp [hres, insertRes]) hdone
      exact ⟨_, hlk, by
        rw [hkeys]
        simp_all [insertRes, requestedKeysSingle]⟩
  · intro env j hres hstat hdone
    obtain ⟨s1, s2, s3, hs1, hs2, hs3, hrun⟩ :=
      runBatchItem_done env j hstat hdone
    rw [hrun]
    by_cases hup : j.upscaleSetting > 0
    · rw [if_pos hup] at hs1
      rcases stepUpscale_ok _ _ _ _ hs1 with ⟨rfl, huf | huf⟩ |
          ⟨k, p1, huf, hk, hu, rfl⟩
      · simp at huf
      · exfalso
        injection huf with huf
        omega
      · rcases stepRemoveBgBatch_ok _ _ _ _ hs2 with ⟨rfl, hrb⟩ |
            ⟨p2, hrb, hbgr, rfl⟩ <;>
          rcases stepConvert_ok _ _ _ _ hs3 with ⟨rfl, hsv, hic⟩ |
              ⟨p3, hfmt, hcv, rfl⟩ | ⟨p3, hfmt, hcv, rfl⟩ <;>
        · simp_all [insertRes, requestedKeysBatch]
    · rw [if_neg hup] at hs1
      rcases stepUpscale_ok _ _ _ _ hs1 with ⟨rfl, huf | huf⟩ |
          ⟨k, p1, huf, hk, hu, rfl⟩
      · rcases stepRemoveBgBatch_ok _ _ _ _ hs2 with ⟨rfl, hrb⟩ |
            ⟨p2, hrb, hbgr, rfl⟩ <;>
          rcases stepConvert_ok _ _ _ _ hs3 with ⟨rfl, hsv, hic⟩ |
              ⟨p3, hfmt, hcv, rfl⟩ | ⟨p3, hfmt, hcv, rfl⟩ <;>
        · simp_all [insertRes, requestedKeysBatch]
      · simp at huf
      · simp at huf

/-- Witness for `c3_result_keys`: a single run with upscale, background
removal and SVG output, and a batch run with background removal. -/
theorem c3_result_keys_witness :
    (∃ p, lookupRes
        (runProcessing demoEnv ⟨some 2, true, "svg"⟩ demoProcJob).results
        "final" = some (ResultVal.path p) ∧
      (runProcessing demoEnv ⟨some 2, true, "svg"⟩ demoProcJob).results.map
        Prod.fst
        = requestedKeysSingle ⟨some 2, true, "svg"⟩ ++
          (if isRasterPath p then ["final_width", "final_height"]
           else [])) ∧
    (runBatchItem demoEnv demoBatchJob).results.map Prod.fst
      = requestedKeysBatch 0 true "png" :=
  ⟨c3_result_keys.1 demoEnv ⟨some 2, true, "svg"⟩ demoProcJob rfl
      (by decide),
   c3_result_keys.2 demoEnv demoBatchJob rfl rfl (by decide)⟩

/-- Every single-job run ends either in a failure state — status
`error`, message stored, progress overwritten with `Error: <msg>` — or
in status `done` with the error field untouched. -/
theorem runProcessing_error_shape (env : Env) (opts : ProcOptions)
    (j : Job) :
    ((runProcessing env opts j).status = "error" ∧
      ∃ e, (runProcessing env opts j).error = some e ∧
        (runProcessing env opts j).progress = some ("Error: " ++ e)) ∨
    ((runProcessing env opts j).status = "done" ∧
      (runProcessing env opts j).error = j.error) := by
  cases hcopy : env.copy j.original (workPath j.id j.original) with
  | error e => left; simp [runProcessing, hcopy, jobFail]
  | ok u =>
    cases hs1 : stepUpscale env opts.upscaleFactor
        ⟨j, workPath j.id j.original⟩ with
    | error e => left; simp [runProcessing, hcopy, hs1, jobFail]
    | ok s1 =>
      cases hs2 : stepRemoveBg env opts.removeBg s1 with
      | error e => left; simp [runProcessing, hcopy, hs1, hs2, jobFail]
      | ok s2 =>
        cases hs3 : stepConvert env opts.outputFormat s2 with
        | error e =>
          left; simp [runProcessing, hcopy, hs1, hs2, hs3, jobFail]
        | ok s3 =>
          have he3 : s3.j.error = j.error := by
            rcases stepUpscale_ok _ _ _ _ hs1 with ⟨rfl, _⟩ |
                ⟨k, p1, _, _, _, rfl⟩ <;>
              rcases stepRemoveBg_ok _ _ _ _ hs2 with ⟨rfl, _⟩ |
                  ⟨p2, _, _, rfl⟩ <;>
                rcases stepConvert_ok _ _ _ _ hs3 with ⟨rfl, _, _⟩ |
                    ⟨p3, _, _, rfl⟩ | ⟨p3, _, _, rfl⟩ <;>
              rfl
          rw [show runProcessing env opts j = finishJob env s3 from by
            simp only [runProcessing, hcopy, hs1, hs2, hs3]]
          by_cases hr : isRasterPath s3.cur
          · cases hp : env.probe s3.cur with
            | error e => left; simp [finishJob, hr, hp, jobFail]
            | ok wh => right; simp [finishJob, hr, hp, he3]
          · right; simp [finishJob, hr, he3]

/-! ## Claim C4 -/

/-- Claim C4: an exception in any step aborts the run — on failure the
status becomes `error`, the error field holds the exception's message,
progress becomes `Error: <msg>`, every entry recorded by earlier
completed steps is retained unchanged, and no later step writes
anything (in particular no `final`).  Stated for a failure at each
pipeline stage on the single-job path, and for the batch path, plus the
general failure shape. -/
theorem c4_failure_semantics :
    (∀ (env : Env) (opts : ProcOptions) (j : Job),
      (runProcessing env opts j).status = "error" →
      ∃ e, (runProcessing env opts j).error = some e ∧
        (runProcessing env opts j).progress = some ("Error: " ++ e)) ∧
    (∀ (env : Env) (opts : ProcOptions) (j : Job) (e : String),
      env.copy j.original (workPath j.id j.original) = .error e →
      runProcessing env opts j = jobFail j e) ∧
    (∀ (env : Env) (opts : ProcOptions) (j : Job) (k : Nat) (e : String),
      opts.upscaleFactor = some k → k ≠ 0 →
      env.copy j.original (workPath j.id j.original) = .ok () →
      env.upscale (workPath j.id j.original) k = .error e →
      runProcessing env opts j = jobFail j e) ∧
    (∀ (env : Env) (opts : ProcOptions) (j : Job) (k : Nat)
      (p e : String),
      opts.upscaleFactor = some k → k ≠ 0 → opts.removeBg = true →
      env.copy j.original (workPath j.id j.original) = .ok () →
      env.upscale (workPath j.id j.original) k = .ok p →
      env.removeBackground p = .error e →
      runProcessing env opts j
        = jobFail { j with results := insertRes j.results "upscaled" (ResultVal.path p) } e) ∧
    (∀ (env : Env) (opts : ProcOptions) (j : Job) (p e : String),
      opts.upscaleFactor = none → opts.removeBg = true →
      opts.outputFormat = "svg" →
      env.copy j.original (workPath j.id j.original) = .ok () →
      env.removeBackground (workPath j.id j.original) = .ok p →
      env.toSvg p = .error e →
      runProcessing env opts j
        = jobFail { j with results := insertRes j.results "no_background" (ResultVal.path p) } e) ∧
    (∀ (env : Env) (j : Job) (p e : String),
      j.status = "uploaded" → j.upscaleSetting > 0 →
      j.removeBgSetting = true →
      env.upscale j.original j.upscaleSetting = .ok p →
      env.removeBackground p = .error e →
      runBatchItem env j
        = jobFail { j with status := "processing", progress := some "Starting...", results := insertRes j.results "upscaled" (ResultVal.path p) } e) := by
  refine ⟨?_, ?_, ?_, ?_, ?_, ?_⟩
  · intro env opts j hst
    rcases runProcessing_error_shape env opts j with ⟨h1, e, h2, h3⟩ |
        ⟨h1, h2⟩
    · exact ⟨e, h2, h3⟩
    · rw [hst] at h1
      simp at h1
  · intro env opts j e h
    simp [runProcessing, h]
  · intro env opts j k e huf hk hcopy hup
    simp [runProcessing, hcopy, stepUpscale, huf, hk, hup]
  · intro env opts j k p e huf hk hrb hcopy hup hbg
    simp [runProcessing, hcopy, stepUpscale, stepRemoveBg, huf, hk, hrb,
      hup, hbg]
  · intro env opts j p e huf hrb hfmt hcopy hbg hsvg
    simp [runProcessing, hcopy, stepUpscale, stepRemoveBg, stepConvert,
      huf, hrb, hfmt, hbg, hsvg]
  · intro env j p e hstat hup hrb hupok hbg
    have hne : j.upscaleSetting ≠ 0 := Nat.pos_iff_ne_zero.mp hup
    simp [runBatchItem, hstat, stepUpscale, stepRemoveBgBatch, hup, hne,
      hrb, hupok, hbg]

/-- Witness for `c4_failure_semantics`: background removal fails after
a successful upscale; the upscaled entry is retained. -/
theorem c4_failure_semantics_witness :
    runProcessing bgFailEnv ⟨some 2, true, "png"⟩ demoProcJob
      = jobFail { demoProcJob with results := insertRes demoProcJob.results "upscaled" (ResultVal.path "outputs/up2.png") } "bg boom" :=
  c4_failure_semantics.2.2.2.1 bgFailEnv ⟨some 2, true, "png"⟩
    demoProcJob 2 "outputs/up2.png" "bg boom" rfl (by decide) rfl
    rfl rfl rfl

/-! ## Claim C5 -/

/-- Claim C5, as stated, is false: the error field is never cleared.
A job whose first run failed (`error = "boom"`) may be re-triggered
(HTTP 200); after the second, fully successful run its status is
`done` while the stale error message is still present — so
error-present does not imply status `error`. -/
theorem c5_counterexample :
    (lookupJob staleStore "j1").map Job.status = some "error" ∧
    staleRetrigger.code = 200 ∧
    staleJob3.status = "done" ∧
    staleJob3.error = some "boom" := by
  decide

/-- Claim C5 (amended): a freshly created job record has no error; a
run that ends in status `error` always carries an error message; but a
successful run leaves the error field exactly as it was — it never
clears it — so after an earlier failure a stale message persists and
the present-iff-error equivalence holds only for jobs that have never
failed. -/
theorem c5_error_field (env : Env) (opts : ProcOptions) (j : Job)
    (jid origPath origName : String) (w h : Nat) :
    (mkUploadedJob jid origPath origName w h).error = none ∧
    ((runProcessing env opts j).status = "error" →
      (runProcessing env opts j).error ≠ none) ∧
    ((runProcessing env opts j).status = "done" →
      (runProcessing env opts j).error = j.error) := by
  refine ⟨rfl, ?_, ?_⟩
  · intro hst
    rcases runProcessing_error_shape env opts j with ⟨h1, e, h2, h3⟩ |
        ⟨h1, h2⟩
    · simp [h2]
    · rw [hst] at h1
      simp at h1
  · intro hst
    rcases runProcessing_error_shape env opts j with ⟨h1, e, h2, h3⟩ |
        ⟨h1, h2⟩
    · rw [hst] at h1
      simp at h1
    · exact h2

/-- Witness for `c5_error_field` on a concrete successful run. -/
theorem c5_error_field_witness :
    (mkUploadedJob "u" "uploads/u.png" "u.png" 8 8).error = none ∧
    (runProcessing demoEnv ⟨none, false, "png"⟩ demoProcJob).error
      = demoProcJob.error := by
  have h := c5_error_field demoEnv ⟨none, false, "png"⟩ demoProcJob
    "u" "uploads/u.png" "u.png" 8 8
  exact ⟨h.1, h.2.2 (by decide)⟩

/-! ## Claim C9 -/

/-- Claim C9: the format-conversion step runs only when the requested
format is exactly the string `"svg"` or `"ico"`; any other value —
arbitrary or misspelled — skips conversion, and the final result is
then the output of the last executed prior step (background removal,
else upscaling), or the working copy of the source when no step ran
(`run_processing`) / the input path itself (`process_pipeline`). -/
theorem c9_conversion_guard :
    (∀ (env : Env) (opts : ProcOptions) (j : Job),
      opts.outputFormat ≠ "svg" → opts.outputFormat ≠ "ico" →
      j.results = [] → (runProcessing env opts j).status = "done" →
      lookupRes (runProcessing env opts j).results "svg" = none ∧
      lookupRes (runProcessing env opts j).results "ico" = none ∧
      ∃ p, lookupRes (runProcessing env opts j).results "final"
          = some (ResultVal.path p) ∧
        (if opts.removeBg then
          lookupRes (runProcessing env opts j).results "no_background"
            = some (ResultVal.path p)
         else if (opts.upscaleFactor.getD 0) ≠ 0 then
          lookupRes (runProcessing env opts j).results "upscaled"
            = some (ResultVal.path p)
         else p = workPath j.id j.original)) ∧
    (∀ (env : Env) (imagePath : String) (uf : Option Nat) (rb : Bool)
      (fmt : String) (r : PipelineResult),
      fmt ≠ "svg" → fmt ≠ "ico" →
      processPipeline env imagePath uf rb fmt = .ok r →
      r.svg = none ∧ r.ico = none ∧
      (if rb then r.noBackground = some r.final
       else if (uf.getD 0) ≠ 0 then r.upscaled = some r.final
       else r.final = imagePath)) := by
  constructor
  · intro env opts j hfs hfi hres hdone
    obtain ⟨s1, s2, s3, hcopy, hs1, hs2, hs3, hrun⟩ :=
      runProcessing_done env opts j hdone
    rw [hrun] at hdone ⊢
    rcases stepUpscale_ok _ _ _ _ hs1 with ⟨rfl, huf | huf⟩ |
        ⟨k, p1, huf, hk, hu, rfl⟩ <;>
      rcases stepRemoveBg_ok _ _ _ _ hs2 with ⟨rfl, hrb⟩ |
          ⟨p2, hrb, hbg, rfl⟩ <;>
        rcases stepConvert_ok _ _ _ _ hs3 with ⟨rfl, hsv, hic⟩ |
            ⟨p3, hfmt, hcv, rfl⟩ | ⟨p3, hfmt, hcv, rfl⟩ <;>
      first
        | exact absurd hfmt hfs
        | exact absurd hfmt hfi
        | (obtain ⟨herr, hlk, hkeys, hpres⟩ := finishJob_done env _
             (by simp [hres, insertRes]) (by simp [hres, insertRes])
             (by simp [hres, insertRes]) hdone
           refine ⟨?_, ?_, _, hlk, ?_⟩ <;>
             simp_all [insertRes, lookupRes, hpres])
  · intro env imagePath uf rb fmt r hfs hfi hok
    cases uf with
    | none =>
      cases rb with
      | false =>
        simp [processPipeline, hfs, hfi] at hok
        subst hok
        simp
      | true =>
        cases hbg : env.removeBackground imagePath with
        | error e => simp [processPipeline, hfs, hfi, hbg] at hok
        | ok p =>
          simp [processPipeline, hfs, hfi, hbg] at hok
          subst hok
          simp
    | some k =>
      by_cases hk : k = 0
      · subst hk
        cases rb with
        | false =>
          simp [processPipeline, hfs, hfi] at hok
          subst hok
          simp
        | true =>
          cases hbg : env.removeBackground imagePath with
          | error e => simp [processPipeline, hfs, hfi, hbg] at hok
          | ok p =>
            simp [processPipeline, hfs, hfi, hbg] at hok
            subst hok
            simp
      · cases hu : env.upscale imagePath k with
        | error e => simp [processPipeline, hfs, hfi, hk, hu] at hok
        | ok p1 =>
          cases rb with
          | false =>
            simp [processPipeline, hfs, hfi, hk, hu] at hok
            subst hok
            simp [hk]
          | true =>
            cases hbg : env.removeBackground p1 with
            | error e =>
              simp [processPipeline, hfs, hfi, hk, hu, hbg] at hok
            | ok p2 =>
              simp [processPipeline, hfs, hfi, hk, hu, hbg] at hok
              subst hok
              simp

/-- Witness for `c9_conversion_guard`: the misspelled format `"svgg"`
skips conversion on both pipeline implementations. -/
theorem c9_conversion_guard_witness :
    (lookupRes (runProcessing demoEnv ⟨some 2, false, "svgg"⟩
        demoProcJob).results "svg" = none ∧
      lookupRes (runProcessing demoEnv ⟨some 2, false, "svgg"⟩
        demoProcJob).results "ico" = none ∧
      ∃ p, lookupRes (runProcessing demoEnv ⟨some 2, false, "svgg"⟩
          demoProcJob).results "final" = some (ResultVal.path p) ∧
        (if (false : Bool) then
          lookupRes (runProcessing demoEnv ⟨some 2, false, "svgg"⟩
            demoProcJob).results "no_background" = some (ResultVal.path p)
         else if ((some 2 : Option Nat).getD 0) ≠ 0 then
          lookupRes (runProcessing demoEnv ⟨some 2, false, "svgg"⟩
            demoProcJob).results "upscaled" = some (ResultVal.path p)
         else p = workPath demoProcJob.id demoProcJob.original)) ∧
    ∃ r, processPipeline demoEnv "uploads/x.png" none false "webp"
        = .ok r ∧ r.svg = none ∧ r.ico = none ∧ r.final = "uploads/x.png" := by
  constructor
  · exact c9_conversion_guard.1 demoEnv ⟨some 2, false, "svgg"⟩
      demoProcJob (by decide) (by decide) rfl (by decide)
  · refine ⟨_, rfl, ?_⟩
    have h := c9_conversion_guard.2 demoEnv "uploads/x.png" none false
      "webp" _ (by decide) (by decide) rfl
    exact h

end BetterImages
